import Mathlib

/-!
Shallow embedding of the slotted-page storage layer of mokdb
(`src/storage/page.rs` and `src/storage/io_manager.rs`).

Machine integers are modelled as `Nat` with explicit wrapping where the
Rust code can overflow in release builds: `wrap16` models a `u16` cast or
wrapping `u16` addition, `sub16` models wrapping `u16` subtraction, and
`usizeSub` models wrapping `usize` subtraction.  A `&mut`-slice index out
of bounds (a Rust panic) is modelled by an explicit `panicOOB` outcome.
-/

namespace Mok

set_option maxRecDepth 100000

def PAGE_SIZE : Nat := 8192
def MAX_SLOTS : Nat := 256
/-- `size_of::<PageHeader>()`: two `u16` fields. -/
def HEADER_SIZE : Nat := 4
/-- `size_of::<Slot>()`: `u16`, `u16`, `u8`, one pad byte. -/
def SLOT_SIZE : Nat := 6
def DATA_SIZE : Nat := PAGE_SIZE - HEADER_SIZE - SLOT_SIZE * MAX_SLOTS
/-- `size_of::<TupleHeader>()`: three `u64`, one `u16`, six pad bytes. -/
def TUPLE_HEADER_SIZE : Nat := 32

/-- A `u16` cast / wrapping `u16` arithmetic result. -/
def wrap16 (n : Nat) : Nat := n % 65536

/-- Wrapping `u16` subtraction (for arguments `< 2^16`). -/
def sub16 (a b : Nat) : Nat := (a + 65536 - b) % 65536

/-- Wrapping `usize` subtraction (for arguments `< 2^64`): release-build
semantics of `a - b` on `usize`. -/
def usizeSub (a b : Nat) : Nat := (a + 2 ^ 64 - b) % 2 ^ 64

structure PageHeader where
  free_space : Nat
  total_free_slots : Nat
deriving DecidableEq

structure Slot where
  offset : Nat
  length : Nat
  is_used : Nat
  pad : Nat
deriving DecidableEq

structure TupleHeader where
  xmin : Nat
  xmax : Nat
  page_no : Nat
  slot_no : Nat
  pad : List Nat
deriving DecidableEq

/-- `data` maps every index `< DATA_SIZE` to the byte stored there; the
fixed-size array `[u8; DATA_SIZE]` justifies using the constant
`DATA_SIZE` wherever the source says `self.data.len()`. -/
structure Page where
  id : Nat
  header : PageHeader
  slots : List Slot
  data : Nat → Nat

/-- Little-endian encoding of `n` into `w` bytes (`to_le_bytes`). -/
def leBytes : Nat → Nat → List Nat
  | _, 0 => []
  | n, Nat.succ w => n % 256 :: leBytes (n / 256) w

/-- Little-endian decoding of `w` bytes at position `off` (`from_le_bytes`). -/
def readLE : List Nat → Nat → Nat → Nat
  | _, _, 0 => 0
  | bs, off, Nat.succ w => bs.getD off 0 + 256 * readLE bs (off + 1) w

/-- The byte slice `d[start..start+len]` of the data region. -/
def dataSlice (d : Nat → Nat) (start len : Nat) : List Nat :=
  (List.range len).map (fun i => d (start + i))

/-- `copy_from_slice` of `bs` into the data region at `off` (caller has
already checked the bounds). -/
def writeBytes (d : Nat → Nat) (off : Nat) (bs : List Nat) : Nat → Nat :=
  fun j => if off ≤ j ∧ j < off + bs.length then bs.getD (j - off) 0 else d j

def PageHeader.new : PageHeader :=
  { free_space := DATA_SIZE          -- `DATA_SIZE as u16`, exact: 6652 < 2^16
    total_free_slots := MAX_SLOTS }  -- `MAX_SLOTS as u16`, exact: 256 < 2^16

def Slot.new : Slot :=
  { offset := 0, length := 0, is_used := 0, pad := 0 }

def TupleHeader.new (xmin xmax page_no slot_no : Nat) : TupleHeader :=
  { xmin := xmin, xmax := xmax, page_no := page_no, slot_no := slot_no
    pad := List.replicate 6 0 }

def TupleHeader.is_visible (h : TupleHeader) (txid : Nat) : Bool :=
  decide (h.xmin ≤ txid) && (decide (h.xmax = 0) || decide (txid < h.xmax))

def TupleHeader.to_bytes (h : TupleHeader) : List Nat :=
  leBytes h.xmin 8 ++ leBytes h.xmax 8 ++ leBytes h.page_no 8 ++
    leBytes h.slot_no 2 ++ h.pad

def TupleHeader.from_bytes (bytes : List Nat) : Option TupleHeader :=
  if bytes.length < 32 then none
  else
    some { xmin := readLE bytes 0 8
           xmax := readLE bytes 8 8
           page_no := readLE bytes 16 8
           slot_no := readLE bytes 24 2
           pad := (bytes.drop 26).take 6 }

def Page.new (id : Nat) : Page :=
  { id := id
    header := PageHeader.new
    slots := List.replicate MAX_SLOTS Slot.new
    data := fun _ => 0 }

/-- `self.slots.iter().position(|x| x.is_used == 0)`. -/
def findFreeSlotList : List Slot → Option Nat
  | [] => none
  | s :: rest =>
      if s.is_used = 0 then some 0 else (findFreeSlotList rest).map (· + 1)

def Page.find_free_slot (p : Page) : Option Nat :=
  findFreeSlotList p.slots

/-- Stable insertion (for `sort_by_key(|u| u.0)`). -/
def insertByFst (a : Nat × Nat) : List (Nat × Nat) → List (Nat × Nat)
  | [] => [a]
  | b :: rest => if b.1 ≤ a.1 then b :: insertByFst a rest else a :: b :: rest

/-- Stable sort by the first component (`sort_by_key(|u| u.0)`). -/
def sortByFst : List (Nat × Nat) → List (Nat × Nat)
  | [] => []
  | a :: rest => insertByFst a (sortByFst rest)

/-- `used_slots.windows(2).find_map(..)`: the gap is computed by the source
as `start2 - (start1 + end1)`, a wrapping `usize` subtraction. -/
def findGapWindows (length : Nat) : List (Nat × Nat) → Option Nat
  | (s1, e1) :: (s2, e2) :: rest =>
      if length ≤ usizeSub s2 (s1 + e1) then some (wrap16 e1)
      else findGapWindows length ((s2, e2) :: rest)
  | _ => none

def Page.find_free_space_offset (p : Page) (length : Nat) : Option Nat :=
  let used_slots :=
    sortByFst ((p.slots.filter (fun x => x.is_used != 0)).map
      (fun x => (x.offset, wrap16 (x.offset + x.length))))
  match used_slots with
  | [] => some 0
  | (offset, _) :: _ =>
      if length ≤ offset then some 0
      else
        match findGapWindows length used_slots with
        | some o => some o
        | none =>
            let last_end := (used_slots.getLastD (0, 0)).2
            if last_end + length ≤ DATA_SIZE then some (wrap16 last_end)
            else none

inductive InsertErr where
  | notEnoughFreeSpace
  | noFreeSlots
  | noFreeDataSpace
  | notEnoughContiguousSpace
  | panicOOB
deriving DecidableEq

/-- `insert_tuple` takes `&mut self`: the result carries the page state
after the call (also after a panic, which aborts mid-write). -/
structure InsertResult where
  page : Page
  out : Except InsertErr Nat

def Page.insert_tuple (p : Page) (xmin xmax page_no : Nat)
    (tuple_data : List Nat) : InsertResult :=
  let total_tuple_len := TUPLE_HEADER_SIZE + tuple_data.length
  if p.header.free_space < wrap16 total_tuple_len then
    ⟨p, .error .notEnoughFreeSpace⟩
  else
    match p.find_free_slot with
    | none => ⟨p, .error .noFreeSlots⟩
    | some slot_index =>
        match p.find_free_space_offset total_tuple_len with
        | none => ⟨p, .error .noFreeDataSpace⟩
        | some offset =>
            if DATA_SIZE < wrap16 (offset + wrap16 total_tuple_len) then
              ⟨p, .error .notEnoughContiguousSpace⟩
            else
              let tuple_header := TupleHeader.new xmin xmax page_no slot_index
              if DATA_SIZE < offset + TUPLE_HEADER_SIZE then
                ⟨p, .error .panicOOB⟩
              else
                let data1 := writeBytes p.data offset tuple_header.to_bytes
                if DATA_SIZE < offset + total_tuple_len then
                  ⟨{ p with data := data1 }, .error .panicOOB⟩
                else
                  let data2 :=
                    writeBytes data1 (offset + TUPLE_HEADER_SIZE) tuple_data
                  let slots' := p.slots.set slot_index
                    { offset := offset
                      length := wrap16 total_tuple_len
                      is_used := 1
                      pad := (p.slots.getD slot_index Slot.new).pad }
                  ⟨{ p with
                      data := data2
                      slots := slots'
                      header :=
                        { free_space :=
                            sub16 p.header.free_space (wrap16 total_tuple_len)
                          total_free_slots :=
                            sub16 p.header.total_free_slots 1 } },
                    .ok slot_index⟩

inductive ReadSlotResult where
  | noneR
  | panicOOB
  | okR (h : TupleHeader) (payload : List Nat)
deriving DecidableEq

def Page.read_slot (p : Page) (index : Nat) : ReadSlotResult :=
  if MAX_SLOTS ≤ index then .noneR
  else
    let slot := p.slots.getD index Slot.new
    if slot.is_used = 0 ∨ slot.length = 0 then .noneR
    else
      let offset := slot.offset
      let start := offset + TUPLE_HEADER_SIZE
      let endIdx := offset + slot.length
      if DATA_SIZE < endIdx then .noneR
      else
        -- `&self.data[offset..offset + TUPLE_HEADER_SIZE]` panics out of bounds
        if DATA_SIZE < offset + TUPLE_HEADER_SIZE then .panicOOB
        else
          match TupleHeader.from_bytes (dataSlice p.data offset TUPLE_HEADER_SIZE) with
          | none => .noneR
          | some header =>
              -- `&self.data[start..end]` panics when `start > end`
              if endIdx < start then .panicOOB
              else .okR header (dataSlice p.data start (endIdx - start))

/-- The loop body of `scan_page` over `slots.iter().enumerate()`; a panic
inside the loop aborts the whole scan (`none`). -/
def scanSlots (p : Page) (txid : Nat) : List Slot → Nat →
    Option (List (TupleHeader × List Nat))
  | [], _ => some []
  | slot :: rest, i =>
      if slot.is_used = 0 ∨ slot.length = 0 then scanSlots p txid rest (i + 1)
      else
        match p.read_slot i with
        | .panicOOB => none
        | .noneR => scanSlots p txid rest (i + 1)
        | .okR h d =>
            (scanSlots p txid rest (i + 1)).map
              (fun r => if h.is_visible txid then (h, d) :: r else r)

def Page.scan_page (p : Page) (txid : Nat) :
    Option (List (TupleHeader × List Nat)) :=
  scanSlots p txid p.slots 0

/-- Serialization of the slot directory, 6 bytes per slot. -/
def encSlots : List Slot → List Nat
  | [] => []
  | s :: rest =>
      leBytes s.offset 2 ++ leBytes s.length 2 ++ [s.is_used, s.pad] ++
        encSlots rest

def Page.to_bytes (p : Page) : List Nat :=
  let buf0 := leBytes p.id 8 ++ leBytes p.header.free_space 2
  let bufSlots := buf0 ++ encSlots p.slots
  -- `while buf.len() < expected_header_and_slots { buf.push(0) }`
  let expected_header_and_slots := 2 + 2 + MAX_SLOTS * SLOT_SIZE
  let buf1 := bufSlots ++
    List.replicate (expected_header_and_slots - bufSlots.length) 0
  let buf2 := buf1 ++ dataSlice p.data 0 DATA_SIZE
  buf2 ++ List.replicate (PAGE_SIZE - buf2.length) 0

inductive FromBytesResult where
  | ok (p : Page)
  | invalidSize
  | panicOOB

/-- One slot entry decoded at byte position `off`. -/
def decodeSlot (buf : List Nat) (off : Nat) : Slot :=
  { offset := readLE buf off 2
    length := readLE buf (off + 2) 2
    is_used := buf.getD (off + 4) 0
    pad := buf.getD (off + 5) 0 }

def Page.from_bytes (buf : List Nat) : FromBytesResult :=
  if buf.length ≠ PAGE_SIZE then .invalidSize
  else
    let id := readLE buf 0 8
    let free_space := readLE buf 8 2
    let total_free_slots := readLE buf 10 2
    -- the running offset is 12 + SLOT_SIZE * i at slot i
    let slots := (List.range MAX_SLOTS).map
      (fun i => decodeSlot buf (12 + SLOT_SIZE * i))
    let dataStart := 12 + SLOT_SIZE * MAX_SLOTS
    -- `&buf[offset..offset + DATA_SIZE]` panics out of bounds
    if dataStart + DATA_SIZE ≤ buf.length then
      .ok { id := id
            header := { free_space := free_space
                        total_free_slots := total_free_slots }
            slots := slots
            data := fun j => buf.getD (dataStart + j) 0 }
    else .panicOOB

/-- `IOManager::insert_page`: the table file is a byte list (`none` when
the file does not exist; open with create+append).  Returns the file
after the write and the derived page number. -/
def insertPage (file : Option (List Nat)) (bytes : List Nat) :
    List Nat × Nat :=
  let f := (match file with | none => [] | some f0 => f0) ++ bytes
  (f, f.length / PAGE_SIZE - 1)

/-- One `insert_tuple` call's arguments. -/
structure InsertOp where
  xmin : Nat
  xmax : Nat
  page_no : Nat
  payload : List Nat

/-- Run a sequence of `insert_tuple` calls, requiring every call to
succeed (`none` as soon as one fails). -/
def applyInserts : Page → List InsertOp → Option Page
  | p, [] => some p
  | p, op :: rest =>
      let r := p.insert_tuple op.xmin op.xmax op.page_no op.payload
      match r.out with
      | .ok _ => applyInserts r.page rest
      | .error _ => none

/-- The sum of the inserted tuples' total lengths (header + payload). -/
def sumTotals : List InsertOp → Nat
  | [] => 0
  | op :: rest => (TUPLE_HEADER_SIZE + op.payload.length) + sumTotals rest

/-- Number of used slots in a slot directory. -/
def countUsed : List Slot → Nat
  | [] => 0
  | s :: rest => (if s.is_used = 0 then 0 else 1) + countUsed rest

/-- The byte ranges `[offset, offset + length)` of any two distinct used
slots are disjoint. -/
def slotRangesDisjoint (p : Page) : Prop :=
  ∀ i j, i < p.slots.length → j < p.slots.length → i ≠ j →
    (p.slots.getD i Slot.new).is_used ≠ 0 →
    (p.slots.getD j Slot.new).is_used ≠ 0 →
    ((p.slots.getD i Slot.new).offset + (p.slots.getD i Slot.new).length ≤
        (p.slots.getD j Slot.new).offset ∨
      (p.slots.getD j Slot.new).offset + (p.slots.getD j Slot.new).length ≤
        (p.slots.getD i Slot.new).offset)

/-- The page after four successful 1-byte-payload inserts into a fresh
page (each tuple is 33 bytes long). -/
def pageAfterFourInserts : Page :=
  (applyInserts (Page.new 0) (List.replicate 4 ⟨1, 0, 0, [7]⟩)).getD (Page.new 0)

/-- The first-fit placement rule as the spec words it (a comparator for
`Page.find_free_space_offset`): the gap between two adjacent used ranges
is the next range's start minus the previous range's end. -/
def findGapSpec (length : Nat) : List (Nat × Nat) → Option Nat
  | (_, e1) :: (s2, e2) :: rest =>
      if length ≤ s2 - e1 then some e1
      else findGapSpec length ((s2, e2) :: rest)
  | _ => none

/-- The spec-worded first-fit offset: place at 0 when there are no used
ranges or the first one starts at `>= length`; else in the first
sufficient gap between adjacent used ranges; else after the last used
range if that fits in the data region. -/
def findFreeSpaceOffsetSpec (p : Page) (length : Nat) : Option Nat :=
  let used :=
    sortByFst ((p.slots.filter (fun x => x.is_used != 0)).map
      (fun x => (x.offset, x.offset + x.length)))
  match used with
  | [] => some 0
  | (first, _) :: _ =>
      if length ≤ first then some 0
      else
        match findGapSpec length used with
        | some o => some o
        | none =>
            let last_end := (used.getLastD (0, 0)).2
            if last_end + length ≤ DATA_SIZE then some last_end else none

/-- A page with two used slots whose ranges are `[10, 20)` and `[40, 50)`. -/
def pageTwoRanges : Page :=
  { Page.new 0 with
      slots := ((List.replicate MAX_SLOTS Slot.new).set 0
        { offset := 10, length := 10, is_used := 1, pad := 0 }).set 1
        { offset := 40, length := 10, is_used := 1, pad := 0 } }

/-- Well-formed slot directory: the full 256 entries, and every used
slot's range holds a tuple header and lies inside the data region. -/
def WFSlots (p : Page) : Prop :=
  p.slots.length = MAX_SLOTS ∧
  ∀ s ∈ p.slots, s.is_used ≠ 0 →
    TUPLE_HEADER_SIZE ≤ s.length ∧ s.offset + s.length ≤ DATA_SIZE

/-- The visibility-filtered scan as the claim words it: in slot-index
order, every used slot contributes its decoded `(TupleHeader, payload)`
pair exactly when the stored header is visible to `txid`. -/
def visibleTuplesSpec (p : Page) (txid : Nat) : List (TupleHeader × List Nat) :=
  p.slots.filterMap (fun slot =>
    if slot.is_used ≠ 0 then
      match TupleHeader.from_bytes (dataSlice p.data slot.offset TUPLE_HEADER_SIZE) with
      | some h =>
          if h.is_visible txid then
            some (h, dataSlice p.data (slot.offset + TUPLE_HEADER_SIZE)
                (slot.length - TUPLE_HEADER_SIZE))
          else none
      | none => none
    else none)

/-- A page whose slot 0 is used but has length 0; its stored tuple
header (all zero bytes) is visible to every transaction. -/
def pageUsedZeroLength : Page :=
  { Page.new 0 with
      slots := (List.replicate MAX_SLOTS Slot.new).set 0
        { offset := 0, length := 0, is_used := 1, pad := 0 } }

/-- A well-formed page holding one 33-byte tuple whose stored header has
`xmin = 5` (data byte 0 is 5, all other bytes 0). -/
def pageOneTupleXminFive : Page :=
  { Page.new 0 with
      slots := (List.replicate MAX_SLOTS Slot.new).set 0
        { offset := 0, length := 33, is_used := 1, pad := 0 }
      data := fun j => if j = 0 then 5 else 0 }

/-! Helper lemmas. -/

theorem leBytes_length (w : Nat) : ∀ n, (leBytes n w).length = w := by
  induction w with
  | zero => intro n; rfl
  | succ w ih => intro n; simp [leBytes, ih]

theorem encSlots_length (l : List Slot) :
    (encSlots l).length = SLOT_SIZE * l.length := by
  induction l with
  | nil => rfl
  | cons s rest ih =>
      simp [encSlots, leBytes_length, ih, SLOT_SIZE]
      ring

theorem dataSlice_length (d : Nat → Nat) (start len : Nat) :
    (dataSlice d start len).length = len := by
  simp [dataSlice]

/-- The serialized page is always 8198 bytes long: 8 (id) + 2 (only
`free_space` of the header) + 1536 (slot directory) + 6652 (data). -/
theorem toBytes_length (p : Page) (h : p.slots.length = MAX_SLOTS) :
    p.to_bytes.length = 8198 := by
  simp only [Page.to_bytes]
  simp [List.length_append, leBytes_length, encSlots_length, dataSlice_length, h,
    MAX_SLOTS, SLOT_SIZE, DATA_SIZE, PAGE_SIZE, HEADER_SIZE]

/-! Claim theorems. -/

/-- C1: the round trip fails on the code as written.  For every page with
the full 256-entry slot directory, `to_bytes` produces a 8198-byte buffer
(it omits `total_free_slots` and does not account for the 8-byte id in
its padding target), so `from_bytes` rejects it with `InvalidPageSize`
instead of reproducing the page. -/
theorem from_bytes_to_bytes_rejected (p : Page) (h : p.slots.length = MAX_SLOTS) :
    Page.from_bytes p.to_bytes = .invalidSize := by
  have hlen := toBytes_length p h
  simp [Page.from_bytes, hlen, PAGE_SIZE]

/-- Witness for C1 at the concrete page `Page.new 0`. -/
theorem from_bytes_to_bytes_rejected_witness :
    (Page.new 0).slots.length = MAX_SLOTS ∧
    Page.from_bytes (Page.new 0).to_bytes = .invalidSize :=
  ⟨by simp [Page.new], from_bytes_to_bytes_rejected (Page.new 0) (by simp [Page.new])⟩

/-- C2: `to_bytes` does not return a `PAGE_SIZE` buffer: for every page
with the full 256-entry slot directory it returns exactly 8198 bytes
(8-byte id + 2 header bytes, `total_free_slots` missing + 1536 slot bytes
+ 6652 data bytes), so `flush_page`'s assertion that the serialized
length equals `PAGE_SIZE` fails on every page. -/
theorem to_bytes_length_not_page_size (p : Page) (h : p.slots.length = MAX_SLOTS) :
    p.to_bytes.length = 8198 ∧ p.to_bytes.length ≠ PAGE_SIZE := by
  have hlen := toBytes_length p h
  exact ⟨hlen, by simp [hlen, PAGE_SIZE]⟩

/-- Witness for C2 at the concrete page `Page.new 0`. -/
theorem to_bytes_length_not_page_size_witness :
    (Page.new 0).slots.length = MAX_SLOTS ∧
    ((Page.new 0).to_bytes.length = 8198 ∧ (Page.new 0).to_bytes.length ≠ PAGE_SIZE) :=
  ⟨by simp [Page.new], to_bytes_length_not_page_size (Page.new 0) (by simp [Page.new])⟩

/-- C3: `from_bytes` never returns a decoded page: a buffer whose length
differs from `PAGE_SIZE` is rejected with `InvalidPageSize`, and on a
buffer of exactly `PAGE_SIZE` bytes the data-region read spans
`1548..1548 + DATA_SIZE = 8200`, past the end of the buffer, so the
out-of-bounds branch is reached and `Ok` is never returned. -/
theorem from_bytes_never_ok (buf : List Nat) :
    (buf.length ≠ PAGE_SIZE → Page.from_bytes buf = .invalidSize) ∧
    (buf.length = PAGE_SIZE → Page.from_bytes buf = .panicOOB) ∧
    ∀ p, Page.from_bytes buf ≠ .ok p := by
  have hpanic : buf.length = PAGE_SIZE → Page.from_bytes buf = .panicOOB := by
    intro h
    simp only [Page.from_bytes]
    rw [if_neg (by simp [h]), if_neg (by rw [h]; decide)]
  refine ⟨fun h => by simp [Page.from_bytes, h], hpanic, fun p hok => ?_⟩
  by_cases h : buf.length = PAGE_SIZE
  · rw [hpanic h] at hok
    exact FromBytesResult.noConfusion hok
  · rw [(by simp [Page.from_bytes, h] : Page.from_bytes buf = .invalidSize)] at hok
    exact FromBytesResult.noConfusion hok

/-- Witness for C3 at two concrete buffers. -/
theorem from_bytes_never_ok_witness :
    Page.from_bytes [] = .invalidSize ∧
    Page.from_bytes (List.replicate 8192 0) = .panicOOB :=
  ⟨(from_bytes_never_ok []).1 (by decide),
   (from_bytes_never_ok (List.replicate 8192 0)).2.1
     (by rw [List.length_replicate]; rfl)⟩

/-- C5: the placement offset does not follow the claimed first-fit rule.
With used ranges `[10, 20)` and `[40, 50)` and a request of 15 bytes the
gap between the ranges is `40 - 20 = 20 >= 15`, so the claimed rule
places at 20, but the source computes the gap as
`start2 - (start1 + end1) = 40 - 30 = 10 < 15` and places at 50 instead. -/
theorem find_free_space_offset_gap_bug :
    Page.find_free_space_offset pageTwoRanges 15 = some 50 ∧
    findFreeSpaceOffsetSpec pageTwoRanges 15 = some 20 := by
  constructor <;> decide

/-- C10: `insert_page` appends the `PAGE_SIZE` raw bytes to the table
file (empty when the file is absent) and returns the post-write length
divided by `PAGE_SIZE`, minus one: page number `k` on a file of exactly
`k * PAGE_SIZE` bytes, and `0` on an absent or empty file. -/
theorem insert_page_appends_and_numbers :
    (∀ bytes : List Nat, bytes.length = PAGE_SIZE →
        insertPage none bytes = (bytes, 0)) ∧
    (∀ (f0 bytes : List Nat) (k : Nat), f0.length = k * PAGE_SIZE →
        bytes.length = PAGE_SIZE →
        insertPage (some f0) bytes = (f0 ++ bytes, k)) := by
  constructor
  · intro bytes h
    simp only [insertPage, List.nil_append]
    rw [h]
    simp [PAGE_SIZE]
  · intro f0 bytes k hf hb
    simp only [insertPage, Prod.mk.injEq, List.length_append]
    rw [hf, hb]
    exact ⟨trivial, by simp only [PAGE_SIZE]; omega⟩

/-- Witness for C10: the first append to an empty file yields page 0, a
second append yields page 1. -/
theorem insert_page_appends_and_numbers_witness :
    insertPage none (List.replicate 8192 0) = (List.replicate 8192 0, 0) ∧
    insertPage (some (List.replicate 8192 0)) (List.replicate 8192 1) =
      (List.replicate 8192 0 ++ List.replicate 8192 1, 1) :=
  ⟨insert_page_appends_and_numbers.1 _ (by rw [List.length_replicate]; rfl),
   insert_page_appends_and_numbers.2 _ _ 1
     (by rw [List.length_replicate]; rfl)
     (by rw [List.length_replicate]; rfl)⟩

/-- C4: the no-overlap invariant is violated by a reachable page.  Four
successful 1-byte-payload inserts into `Page.new 0` succeed (the wrapping
gap computation `start2 - (start1 + end1)` underflows on the fourth
insert and accepts offset 66), leaving slots 2 and 3 both used with the
same byte range `[66, 99)`. -/
theorem insert_overlap_after_four_inserts :
    applyInserts (Page.new 0) (List.replicate 4 ⟨1, 0, 0, [7]⟩) =
      some pageAfterFourInserts ∧
    pageAfterFourInserts.slots.getD 2 Slot.new =
      { offset := 66, length := 33, is_used := 1, pad := 0 } ∧
    pageAfterFourInserts.slots.getD 3 Slot.new =
      { offset := 66, length := 33, is_used := 1, pad := 0 } ∧
    ¬ slotRangesDisjoint pageAfterFourInserts := by
  have h2 : pageAfterFourInserts.slots.getD 2 Slot.new =
      ({ offset := 66, length := 33, is_used := 1, pad := 0 } : Slot) := by decide
  have h3 : pageAfterFourInserts.slots.getD 3 Slot.new =
      ({ offset := 66, length := 33, is_used := 1, pad := 0 } : Slot) := by decide
  have hlen : pageAfterFourInserts.slots.length = 256 := by decide
  refine ⟨rfl, h2, h3, fun hdisj => ?_⟩
  have h23 := hdisj 2 3 (by rw [hlen]; omega) (by rw [hlen]; omega) (by omega)
    (by rw [h2]; decide) (by rw [h3]; decide)
  rw [h2, h3] at h23
  simp at h23

theorem new_find_free_slot (id : Nat) : (Page.new id).find_free_slot = some 0 := rfl

theorem new_header_free_space (id : Nat) :
    (Page.new id).header.free_space = DATA_SIZE := rfl

theorem new_find_free_space_offset (id L : Nat) :
    (Page.new id).find_free_space_offset L = some 0 := rfl

/-- Inserting any 65504-byte payload into a fresh page panics while
copying (the `as u16` casts let every check pass), after the 32 header
bytes were already written (data byte 0 becomes `xmin`'s low byte). -/
theorem insert_65504_panics (xm xx pn : Nat) (d : List Nat) (hd : d.length = 65504) :
    (Page.insert_tuple (Page.new 0) xm xx pn d).out = .error .panicOOB ∧
    (Page.insert_tuple (Page.new 0) xm xx pn d).page.data 0 = xm % 256 := by
  have h1 : ¬ ((Page.new 0).header.free_space <
      wrap16 (TUPLE_HEADER_SIZE + d.length)) := by
    rw [hd, new_header_free_space]
    decide
  have h2 : ¬ (DATA_SIZE < wrap16 (0 + wrap16 (TUPLE_HEADER_SIZE + d.length))) := by
    rw [hd]
    decide
  have h3 : ¬ (DATA_SIZE < 0 + TUPLE_HEADER_SIZE) := by decide
  have h4 : DATA_SIZE < 0 + (TUPLE_HEADER_SIZE + d.length) := by
    rw [hd]
    decide
  refine ⟨?_, ?_⟩
  · simp only [Page.insert_tuple, new_find_free_slot, new_find_free_space_offset,
      if_neg h1, if_neg h2, if_neg h3, if_pos h4]
  · simp only [Page.insert_tuple, new_find_free_slot, new_find_free_space_offset,
      if_neg h1, if_neg h2, if_neg h3, if_pos h4]
    simp [writeBytes, TupleHeader.to_bytes, TupleHeader.new, leBytes]

/-- On every error path of `insert_tuple` except the mid-write panic the
page is returned untouched. -/
theorem insert_tuple_shape (p : Page) (xm xx pn : Nat) (d : List Nat) :
    (p.insert_tuple xm xx pn d).page = p ∨
    (∃ k, (p.insert_tuple xm xx pn d).out = .ok k) ∨
    (p.insert_tuple xm xx pn d).out = .error .panicOOB := by
  simp only [Page.insert_tuple]
  split
  · exact Or.inl rfl
  split
  · exact Or.inl rfl
  split
  · exact Or.inl rfl
  split
  · exact Or.inl rfl
  split
  · exact Or.inl rfl
  split
  · exact Or.inr (Or.inr rfl)
  · exact Or.inr (Or.inl ⟨_, rfl⟩)

/-- C7 (amended): for tuples whose total length is below 2^16, a total
length exceeding `free_space` yields the `NotEnoughFreeSpace` error and
an unchanged page; and whenever `insert_tuple` returns any error (as
opposed to panicking mid-write) the page is exactly as before the call. -/
theorem insert_error_cases :
    (∀ (p : Page) (xm xx pn : Nat) (d : List Nat),
        TUPLE_HEADER_SIZE + d.length < 65536 →
        p.header.free_space < TUPLE_HEADER_SIZE + d.length →
        (p.insert_tuple xm xx pn d).out = .error .notEnoughFreeSpace ∧
        (p.insert_tuple xm xx pn d).page = p) ∧
    (∀ (p : Page) (xm xx pn : Nat) (d : List Nat) (e : InsertErr),
        (p.insert_tuple xm xx pn d).out = .error e → e ≠ .panicOOB →
        (p.insert_tuple xm xx pn d).page = p) := by
  constructor
  · intro p xm xx pn d hlt hfs
    have hw : wrap16 (TUPLE_HEADER_SIZE + d.length) =
        TUPLE_HEADER_SIZE + d.length := Nat.mod_eq_of_lt hlt
    constructor <;> (simp only [Page.insert_tuple]; rw [hw, if_pos hfs])
  · intro p xm xx pn d e hout hne
    rcases insert_tuple_shape p xm xx pn d with hp | ⟨k, hk⟩ | hpanic
    · exact hp
    · rw [hout] at hk
      exact Except.noConfusion hk
    · rw [hout] at hpanic
      injection hpanic with h
      exact absurd h hne

/-- Witness for C7 (amended) at a 6621-byte payload (total length 6653,
one byte more than a fresh page's free space). -/
theorem insert_error_cases_witness :
    TUPLE_HEADER_SIZE + (List.replicate 6621 (0 : Nat)).length < 65536 ∧
    ((Page.insert_tuple (Page.new 0) 1 0 0 (List.replicate 6621 0)).out =
        .error .notEnoughFreeSpace ∧
      (Page.insert_tuple (Page.new 0) 1 0 0 (List.replicate 6621 0)).page =
        Page.new 0) :=
  ⟨by rw [List.length_replicate]; decide,
   insert_error_cases.1 (Page.new 0) 1 0 0 (List.replicate 6621 0)
     (by rw [List.length_replicate]; decide)
     (by rw [List.length_replicate]; decide)⟩

/-- C7 counterexample to the claim as stated: a 65504-byte payload has
total length 65536, which exceeds the fresh page's `free_space` of 6652,
yet `insert_tuple` does not return `NotEnoughFreeSpace` (the `as u16`
cast reduces the length to 0): it panics mid-write after having already
written the tuple header into the data region (byte 0 becomes 1). -/
theorem oversized_insert_panics :
    (Page.new 0).header.free_space <
      TUPLE_HEADER_SIZE + (List.replicate 65504 (0 : Nat)).length ∧
    (Page.insert_tuple (Page.new 0) 1 0 0 (List.replicate 65504 0)).out =
      .error .panicOOB ∧
    (Page.insert_tuple (Page.new 0) 1 0 0 (List.replicate 65504 0)).page.data 0 = 1 ∧
    (Page.new 0).data 0 = 0 := by
  have hd : (List.replicate 65504 (0 : Nat)).length = 65504 := by
    rw [List.length_replicate]
  have h := insert_65504_panics 1 0 0 (List.replicate 65504 0) hd
  refine ⟨?_, h.1, h.2, rfl⟩
  rw [hd, new_header_free_space]
  decide

/-- C8: the free-space check of `insert_tuple` compares the total tuple
length only modulo 2^16 (the `as u16` cast), and for the 65504-byte
payload (total length 65536 ≥ 2^16) into a fresh page every pre-write
check passes and the out-of-bounds panic branch of the payload copy is
reached instead of an error return. -/
theorem insert_u16_cast_checks :
    (∀ (p : Page) (xm xx pn : Nat) (d : List Nat),
        (p.insert_tuple xm xx pn d).out = .error .notEnoughFreeSpace ↔
          p.header.free_space < wrap16 (TUPLE_HEADER_SIZE + d.length)) ∧
    2 ^ 16 ≤ TUPLE_HEADER_SIZE + (List.replicate 65504 (0 : Nat)).length ∧
    (Page.insert_tuple (Page.new 0) 1 0 0 (List.replicate 65504 0)).out =
      .error .panicOOB := by
  have hd : (List.replicate 65504 (0 : Nat)).length = 65504 := by
    rw [List.length_replicate]
  refine ⟨fun p xm xx pn d => ?_, by rw [hd]; decide,
    (insert_65504_panics 1 0 0 (List.replicate 65504 0) hd).1⟩
  simp only [Page.insert_tuple]
  split
  · rename_i hc
    exact iff_of_true rfl hc
  rename_i hc
  refine iff_of_false ?_ hc
  split
  · simp
  split
  · simp
  split
  · simp
  split
  · simp
  split
  · simp
  · simp

theorem getD_of_drop_cons {s : Slot} :
    ∀ (i : Nat) (l rest : List Slot), l.drop i = s :: rest →
      l.getD i Slot.new = s := by
  intro i
  induction i with
  | zero =>
      intro l rest h
      rw [List.drop_zero] at h
      rw [h]
      rfl
  | succ i ih =>
      intro l rest h
      cases l with
      | nil => simp at h
      | cons a l' =>
          rw [List.drop_succ_cons] at h
          have hh := ih l' rest h
          simpa [List.getD] using hh

/-- The scan loop agrees, slot by slot, with the visibility-filtered
spec list on well-formed suffixes of the slot directory. -/
theorem scanSlots_eq (p : Page) (txid : Nat) :
    ∀ (l : List Slot) (i : Nat),
      p.slots.drop i = l → i + l.length ≤ MAX_SLOTS →
      (∀ s ∈ l, s.is_used ≠ 0 →
        TUPLE_HEADER_SIZE ≤ s.length ∧ s.offset + s.length ≤ DATA_SIZE) →
      scanSlots p txid l i =
        some (l.filterMap (fun slot =>
          if slot.is_used ≠ 0 then
            match TupleHeader.from_bytes
                (dataSlice p.data slot.offset TUPLE_HEADER_SIZE) with
            | some h =>
                if h.is_visible txid then
                  some (h, dataSlice p.data (slot.offset + TUPLE_HEADER_SIZE)
                      (slot.length - TUPLE_HEADER_SIZE))
                else none
            | none => none
          else none)) := by
  intro l
  induction l with
  | nil =>
      intro i _ _ _
      rfl
  | cons slot rest ih =>
      intro i hdrop hlen hok
      have hdrop' : p.slots.drop (i + 1) = rest := by
        rw [← List.tail_drop, hdrop]
        rfl
      have hgetD : p.slots.getD i Slot.new = slot := getD_of_drop_cons i _ _ hdrop
      have hlenc : i + (rest.length + 1) ≤ MAX_SLOTS := by
        simpa [List.length_cons] using hlen
      have hrec := ih (i + 1) hdrop' (by omega)
        (fun s hs => hok s (List.mem_cons_of_mem _ hs))
      by_cases hskip : slot.is_used = 0 ∨ slot.length = 0
      · have hu : slot.is_used = 0 := by
          by_contra hu
          have h32 := (hok slot (List.mem_cons_self _ _) hu).1
          rcases hskip with h | h
          · exact hu h
          · rw [h] at h32
            exact absurd h32 (by decide)
        have hloop : scanSlots p txid (slot :: rest) i =
            scanSlots p txid rest (i + 1) := by
          simp only [scanSlots, if_pos hskip]
        rw [hloop, hrec, List.filterMap_cons]
        simp [hu]
      · obtain ⟨hu, hl0⟩ := not_or.mp hskip
        obtain ⟨h32, hend⟩ := hok slot (List.mem_cons_self _ _) hu
        have hi : ¬ (MAX_SLOTS ≤ i) := by omega
        rcases hfb : TupleHeader.from_bytes
            (dataSlice p.data slot.offset TUPLE_HEADER_SIZE) with _ | hdr
        · exfalso
          revert hfb
          simp only [TupleHeader.from_bytes, dataSlice_length]
          rw [if_neg (by decide : ¬ TUPLE_HEADER_SIZE < 32)]
          simp
        have hread : p.read_slot i = .okR hdr
            (dataSlice p.data (slot.offset + TUPLE_HEADER_SIZE)
              (slot.offset + slot.length - (slot.offset + TUPLE_HEADER_SIZE))) := by
          simp only [Page.read_slot, hgetD, hfb]
          rw [if_neg hi, if_neg hskip,
            if_neg (show ¬ DATA_SIZE < slot.offset + slot.length by omega),
            if_neg (show ¬ DATA_SIZE < slot.offset + TUPLE_HEADER_SIZE by omega),
            if_neg (show ¬ slot.offset + slot.length <
              slot.offset + TUPLE_HEADER_SIZE by omega)]
        have harith : slot.offset + slot.length -
            (slot.offset + TUPLE_HEADER_SIZE) = slot.length - TUPLE_HEADER_SIZE := by
          omega
        simp only [scanSlots, if_neg hskip, hread, hrec, Option.map_some', harith]
        rw [List.filterMap_cons]
        simp only [if_pos hu, hfb]
        cases hv : hdr.is_visible txid <;> simp [hv]

/-- C9 (amended): on pages whose used slots all have length at least
`TUPLE_HEADER_SIZE` and whose ranges lie inside the data region,
`scan_page` completes without a panic and returns, in slot-index order,
exactly the used slots' decoded `(TupleHeader, payload)` pairs whose
stored header satisfies the visibility predicate
`xmin <= txid && (xmax == 0 || txid < xmax)`; that predicate holds for
`xmin = 5, xmax = 0` at `txid = 5, 6, 100` and fails at 4, and for
`xmin = 5, xmax = 10` it holds at `txid = 5..9` and fails at 4 and at
every `txid >= 10`. -/
theorem scan_page_visibility :
    (∀ (p : Page) (txid : Nat), WFSlots p →
        p.scan_page txid = some (visibleTuplesSpec p txid)) ∧
    (∀ t ∈ ([5, 6, 100] : List Nat), (TupleHeader.new 5 0 0 0).is_visible t = true) ∧
    (TupleHeader.new 5 0 0 0).is_visible 4 = false ∧
    (∀ t ∈ ([5, 6, 7, 8, 9] : List Nat),
        (TupleHeader.new 5 10 0 0).is_visible t = true) ∧
    (TupleHeader.new 5 10 0 0).is_visible 4 = false ∧
    (∀ t, 10 ≤ t → (TupleHeader.new 5 10 0 0).is_visible t = false) := by
  refine ⟨fun p txid hp => ?_, by decide, by decide, by decide, by decide,
    fun t ht => ?_⟩
  · exact scanSlots_eq p txid p.slots 0 (List.drop_zero _)
      (by rw [hp.1]; omega) hp.2
  · simp only [TupleHeader.is_visible, TupleHeader.new]
    simp
    omega

/-- Witness for C9 (amended) at a concrete well-formed page holding one
tuple with `xmin = 5`, plus one instance of the `txid >= xmax` case. -/
theorem scan_page_visibility_witness :
    pageOneTupleXminFive.scan_page 5 =
      some (visibleTuplesSpec pageOneTupleXminFive 5) ∧
    (TupleHeader.new 5 10 0 0).is_visible 10 = false :=
  ⟨scan_page_visibility.1 pageOneTupleXminFive 5 ⟨by decide, by decide⟩,
   scan_page_visibility.2.2.2.2.2 10 (by omega)⟩

/-- C9 counterexample to the claim as stated: a used slot of length 0 is
skipped by `scan_page` even though its stored tuple header (all zero
bytes: `xmin = 0`, `xmax = 0`) satisfies the visibility predicate, so
the scan does not include every visible used slot. -/
theorem scan_skips_used_zero_length_slot :
    pageUsedZeroLength.scan_page 0 = some [] ∧
    (pageUsedZeroLength.slots.getD 0 Slot.new).is_used = 1 ∧
    TupleHeader.from_bytes (dataSlice pageUsedZeroLength.data
        (pageUsedZeroLength.slots.getD 0 Slot.new).offset TUPLE_HEADER_SIZE) =
      some (TupleHeader.new 0 0 0 0) ∧
    (TupleHeader.new 0 0 0 0).is_visible 0 = true ∧
    visibleTuplesSpec pageUsedZeroLength 0 = [(TupleHeader.new 0 0 0 0, [])] := by
  exact ⟨by decide, by decide, by decide, by decide, by decide⟩

theorem countUsed_le_length (l : List Slot) : countUsed l ≤ l.length := by
  induction l with
  | nil => exact Nat.le_refl 0
  | cons s rest ih =>
      simp only [countUsed, List.length_cons]
      split <;> omega

theorem findFreeSlotList_countUsed_lt (l : List Slot) :
    ∀ i, findFreeSlotList l = some i → countUsed l < l.length := by
  induction l with
  | nil => intro i h; exact Option.noConfusion h
  | cons s rest ih =>
      intro i h
      simp only [findFreeSlotList] at h
      simp only [countUsed, List.length_cons]
      split at h
      · rename_i hu
        rw [if_pos hu]
        have := countUsed_le_length rest
        omega
      · rename_i hu
        rw [if_neg hu]
        rcases hrest : findFreeSlotList rest with _ | j
        · rw [hrest] at h
          exact Option.noConfusion h
        · have := ih j hrest
          omega

theorem countUsed_set_of_free (x : Slot) (hx : x.is_used ≠ 0) :
    ∀ (l : List Slot) (i : Nat), findFreeSlotList l = some i →
      countUsed (l.set i x) = countUsed l + 1 := by
  intro l
  induction l with
  | nil => intro i h; exact Option.noConfusion h
  | cons s rest ih =>
      intro i h
      simp only [findFreeSlotList] at h
      split at h
      · rename_i hu
        obtain rfl : i = 0 := by
          injection h with h
          omega
        simp only [List.set_cons_zero, countUsed]
        rw [if_pos hu, if_neg hx]
        omega
      · rename_i hu
        rcases hrest : findFreeSlotList rest with _ | j
        · rw [hrest] at h
          exact Option.noConfusion h
        · rw [hrest] at h
          obtain rfl : i = j + 1 := by
            simp only [Option.map_some'] at h
            injection h with h
            omega
          simp only [List.set_cons_succ, countUsed]
          rw [ih j hrest]
          omega

/-- The bookkeeping performed by one successful `insert_tuple` call:
`free_space` drops by exactly the total tuple length, which fits in both
the free space and the data region, `total_free_slots` is decremented,
and exactly one more slot is used. -/
theorem insert_ok_step (p : Page) (xm xx pn : Nat) (d : List Nat) (k : Nat)
    (h16 : p.header.free_space < 65536)
    (h : (p.insert_tuple xm xx pn d).out = .ok k) :
    TUPLE_HEADER_SIZE + d.length ≤ DATA_SIZE ∧
    TUPLE_HEADER_SIZE + d.length ≤ p.header.free_space ∧
    (p.insert_tuple xm xx pn d).page.header.free_space
      = p.header.free_space - (TUPLE_HEADER_SIZE + d.length) ∧
    (p.insert_tuple xm xx pn d).page.header.total_free_slots
      = sub16 p.header.total_free_slots 1 ∧
    countUsed (p.insert_tuple xm xx pn d).page.slots = countUsed p.slots + 1 ∧
    (p.insert_tuple xm xx pn d).page.slots.length = p.slots.length ∧
    countUsed p.slots < p.slots.length := by
  have hD : DATA_SIZE = 6652 := rfl
  revert h
  simp only [Page.insert_tuple]
  split
  · intro h
    exact absurd h (by simp)
  split
  · intro h
    exact absurd h (by simp)
  split
  · intro h
    exact absurd h (by simp)
  split
  · intro h
    exact absurd h (by simp)
  split
  · intro h
    exact absurd h (by simp)
  split
  · intro h
    exact absurd h (by simp)
  · rename_i hc1 x1 sidx heqslot x2 off heqoff hcontig hpanic1 hpanic2
    intro _
    have hslot : findFreeSlotList p.slots = some sidx := heqslot
    have htot : TUPLE_HEADER_SIZE + d.length ≤ DATA_SIZE := by omega
    have hw : wrap16 (TUPLE_HEADER_SIZE + d.length) = TUPLE_HEADER_SIZE + d.length := by
      simp only [wrap16]
      omega
    rw [hw] at hc1
    have hcu := countUsed_set_of_free
      { offset := off, length := wrap16 (TUPLE_HEADER_SIZE + d.length),
        is_used := 1, pad := (p.slots.getD sidx Slot.new).pad }
      (by simp) p.slots sidx hslot
    refine ⟨htot, by omega, ?_, rfl, hcu, List.length_set .., ?_⟩
    · show sub16 p.header.free_space (wrap16 (TUPLE_HEADER_SIZE + d.length)) = _
      rw [hw]
      simp only [sub16]
      omega
    · exact findFreeSlotList_countUsed_lt p.slots sidx hslot

/-- The space-accounting invariant is preserved by every successful
insert sequence. -/
theorem applyInserts_accounting :
    ∀ (ops : List InsertOp) (p q : Page) (n s : Nat),
      p.header.free_space = DATA_SIZE - s → s ≤ DATA_SIZE →
      countUsed p.slots = n → p.header.total_free_slots = MAX_SLOTS - n →
      n ≤ MAX_SLOTS → p.slots.length = MAX_SLOTS →
      applyInserts p ops = some q →
      q.header.free_space = DATA_SIZE - (s + sumTotals ops) ∧
      s + sumTotals ops ≤ DATA_SIZE ∧
      countUsed q.slots = n + ops.length ∧
      q.header.total_free_slots = MAX_SLOTS - (n + ops.length) ∧
      n + ops.length ≤ MAX_SLOTS ∧ q.slots.length = MAX_SLOTS := by
  have hD : DATA_SIZE = 6652 := rfl
  have hM : MAX_SLOTS = 256 := rfl
  intro ops
  induction ops with
  | nil =>
      intro p q n s h1 h2 h3 h4 h5 h6 happ
      obtain rfl : p = q := by simpa [applyInserts] using happ
      refine ⟨?_, ?_, ?_, ?_, ?_, h6⟩ <;> simp [sumTotals, h1, h2, h3, h4, h5]
  | cons op rest ih =>
      intro p q n s h1 h2 h3 h4 h5 h6 happ
      simp only [applyInserts] at happ
      cases hout : (p.insert_tuple op.xmin op.xmax op.page_no op.payload).out with
      | error e =>
          rw [hout] at happ
          exact Option.noConfusion happ
      | ok k =>
          rw [hout] at happ
          have step := insert_ok_step p op.xmin op.xmax op.page_no op.payload k
            (by omega) hout
          obtain ⟨htot, hfs, hfs', htfs', hcu', hlen', hlt⟩ := step
          have hnew := ih (p.insert_tuple op.xmin op.xmax op.page_no op.payload).page
            q (n + 1) (s + (TUPLE_HEADER_SIZE + op.payload.length))
            (by omega) (by omega) (by omega)
            (by rw [htfs', h4]; simp only [sub16]; omega)
            (by omega) (by omega) happ
          obtain ⟨g1, g2, g3, g4, g5, g6⟩ := hnew
          simp only [sumTotals, List.length_cons]
          refine ⟨by omega, by omega, by omega, by omega, by omega, g6⟩

/-- C6: starting from a fresh page, after any sequence of N successful
`insert_tuple` calls with payload lengths `l_1..l_n` the header counters
satisfy `free_space = DATA_SIZE - Σ(32 + l_i)` (so each successful
insert decreases `free_space` by exactly the inserted tuple's total
length) and `total_free_slots = 256 - N`. -/
theorem space_accounting (id : Nat) (ops : List InsertOp) (q : Page)
    (h : applyInserts (Page.new id) ops = some q) :
    q.header.free_space = DATA_SIZE - sumTotals ops ∧
    sumTotals ops ≤ DATA_SIZE ∧
    q.header.total_free_slots = MAX_SLOTS - ops.length ∧
    ops.length ≤ MAX_SLOTS := by
  have h0 : countUsed (Page.new id).slots = 0 := rfl
  have h6 : (Page.new id).slots.length = MAX_SLOTS := by
    simp [Page.new]
  have := applyInserts_accounting ops (Page.new id) q 0 0 rfl (Nat.zero_le _)
    h0 rfl (Nat.zero_le _) h6 h
  obtain ⟨g1, g2, g3, g4, g5, _⟩ := this
  simp only [Nat.zero_add] at g1 g2 g4 g5
  exact ⟨g1, g2, g4, g5⟩

/-- Witness for C6 at one 1-byte-payload insert into a fresh page. -/
theorem space_accounting_witness :
    (Page.insert_tuple (Page.new 0) 1 0 0 [7]).page.header.free_space
      = DATA_SIZE - sumTotals [⟨1, 0, 0, [7]⟩] ∧
    sumTotals [⟨1, 0, 0, [7]⟩] ≤ DATA_SIZE ∧
    (Page.insert_tuple (Page.new 0) 1 0 0 [7]).page.header.total_free_slots
      = MAX_SLOTS - ([⟨1, 0, 0, [7]⟩] : List InsertOp).length ∧
    ([⟨1, 0, 0, [7]⟩] : List InsertOp).length ≤ MAX_SLOTS :=
  space_accounting 0 [⟨1, 0, 0, [7]⟩]
    (Page.insert_tuple (Page.new 0) 1 0 0 [7]).page rfl

end Mok
